import Mathlib

/-!
Verification development for the GitLab groups-filling script
(src/app.py).  The script loads configuration from environment
variables through a small helper class, validates a list of user
identifiers against the remote instance, filters the group list and
ensures each surviving group contains each validated user.

The embedding below translates that Python code into executable Lean
definitions.  An environment is a partial map from variable names to
strings, remote state (which users exist, which groups exist, which
memberships exist) is passed explicitly, and process termination
points become explicit outcome constructors.
-/

namespace App

/-- Python values that cross the int/str boundary in the script:
the numeric group id coming from the API JSON, and the strings taken
from configuration.  Used to express the dynamic comparison on
src/app.py line 187 faithfully. -/
inductive PyVal
  | int (n : Int)
  | str (s : String)
deriving DecidableEq

/-- Python equality between such values: values of different runtime
types never compare equal. -/
def pyEq : PyVal → PyVal → Bool
  | PyVal.int a, PyVal.int b => a == b
  | PyVal.str a, PyVal.str b => a == b
  | _, _ => false

/-- Python membership test x in l, built on pyEq. -/
def pyIn (v : PyVal) (l : List PyVal) : Bool :=
  l.any (pyEq v)

/-- ASCII lowercase of one character, as Python str.lower acts on the
ASCII configuration words the script compares against. -/
def charLower (c : Char) : Char :=
  if 'A' ≤ c && c ≤ 'Z' then Char.ofNat (c.toNat + 32) else c

/-- Python str.lower on the ASCII strings the script handles. -/
def pyLower (s : String) : String :=
  String.mk (s.data.map charLower)

/-- The ASCII whitespace Python str.strip removes. -/
def isSpaceChar (c : Char) : Bool :=
  c == ' ' || c == '\t' || c == '\n' || c == '\r' || c == '\x0b' || c == '\x0c'

/-- Python str.strip on a character list: leading and trailing
whitespace removed. -/
def trimChars (l : List Char) : List Char :=
  ((l.dropWhile isSpaceChar).reverse.dropWhile isSpaceChar).reverse

/-- Does the list l begin with the pattern p? -/
def beginsWith : List Char → List Char → Bool
  | _, [] => true
  | [], _ :: _ => false
  | c :: cs, d :: ds => c == d && beginsWith cs ds

/-- Python str.split on a non-empty separator, over character lists:
scan for the separator, emit the chunk gathered so far, continue
after it; empty chunks are kept.  fuel bounds the scan; every step
consumes at least one character, so the input length is enough. -/
def pySplitAux (sep : List Char) : Nat → List Char → List Char → List (List Char)
  | _, [], acc => [acc.reverse]
  | 0, rest, acc => [acc.reverse ++ rest]
  | fuel + 1, c :: cs, acc =>
    if beginsWith (c :: cs) sep then
      acc.reverse :: pySplitAux sep fuel ((c :: cs).drop sep.length) []
    else
      pySplitAux sep fuel cs (c :: acc)

/-- Python s.split(sep) for a non-empty sep, as the script calls it
with the comma separator. -/
def pySplit (s : String) (sep : String) : List String :=
  (pySplitAux sep.data s.data.length s.data []).map String.mk

/-- Models os.environ.get(key, fallback): the variable's value when
set (the empty string counts as set), otherwise the fallback. -/
def osGet (environ : String → Option String) (key : String)
    (fallback : Option String) : Option String :=
  match environ key with
  | some v => some v
  | none => fallback

/-- Embeds env.__init__ (src/app.py lines 31-47): the alternate key's
value is looked up first (None when no alternate key is given), then
the resolved value is the primary key's value with fallback
alt_value if alt_value is not None else default. -/
def envResolve (environ : String → Option String) (key : String)
    (altKey : Option String) (default : Option String) : Option String :=
  let altValue : Option String :=
    match altKey with
    | some ak => environ ak
    | none => none
  osGet environ key (match altValue with
    | some v => some v
    | none => default)

/-- Outcome of env.required (src/app.py lines 55-63): either the
value, or the fatal-log-and-exit path. -/
inductive ReqResult
  | ok (s : String)
  | fatalExit
deriving DecidableEq

/-- Embeds env.required: returns the value whenever it is not None
(note: the test is is not None, not falsiness, so an empty string is
returned), otherwise logs fatal and exits. -/
def required (value : Option String) : ReqResult :=
  match value with
  | some v => ReqResult.ok v
  | none => ReqResult.fatalExit

/-- Digit-string to Nat; none when any character is not a decimal
digit or the string is empty. -/
def digitsToNat : List Char → Option Nat
  | [] => none
  | cs => cs.foldl
      (fun acc c =>
        match acc with
        | none => none
        | some n => if c.isDigit then some (n * 10 + (c.toNat - 48)) else none)
      (some 0)

/-- Models the Python builtin int() on a string for the forms the
script can meet: surrounding whitespace, an optional sign and decimal
digits.  none models the uncaught ValueError. -/
def pyInt (s : String) : Option Int :=
  match trimChars s.data with
  | [] => none
  | c :: cs =>
    if c = '-' then (digitsToNat cs).map (fun n => -(n : Int))
    else if c = '+' then (digitsToNat cs).map (fun n => (n : Int))
    else (digitsToNat (c :: cs)).map (fun n => (n : Int))

/-- Embeds env.int (src/app.py lines 65-71): a falsy value (unset, or
set to the empty string) returns the default unparsed; otherwise the
value is parsed, and a parse failure (none) is an uncaught exception.
The call site passes the integer default through the constructor
unchanged, which this signature mirrors by taking it as an Int. -/
def envInt (value : Option String) (default : Int) : Option Int :=
  match value with
  | none => some default
  | some s => if s = "" then some default else pyInt s

/-- The truthy words of env.boolean (src/app.py line 79). -/
def trueWords : List String := ["true", "t", "yes", "y", "on", "1"]

/-- Embeds env.boolean (src/app.py lines 73-79): a falsy value
returns the default; otherwise the lowercased value is tested against
trueWords.  When the variable is unset and the call site supplied a
Bool default, the source stores the Bool in self.value and either
returns it from the falsy branch (False) or routes it through
str(True).lower() = "true" (True); both give back the default, which
this definition states directly. -/
def envBoolean (value : Option String) (default : Bool) : Bool :=
  match value with
  | none => default
  | some s => if s = "" then default else trueWords.contains (pyLower s)

/-- Embeds env.list (src/app.py lines 81-87): a falsy value gives the
empty list, otherwise the value is split on the separator (Python
str.split on a non-empty separator keeps empty tokens, as
String.splitOn does). -/
def envList (value : Option String) (sep : String) : List String :=
  match value with
  | none => []
  | some s => if s = "" then [] else pySplit s sep

/-- Lexicographic strict order on character lists, Python's order on
the ASCII strings the script sorts. -/
def lexLt : List Char → List Char → Bool
  | [], [] => false
  | [], _ :: _ => true
  | _ :: _, [] => false
  | c :: cs, d :: ds => if c = d then lexLt cs ds else decide (c < d)

/-- Insert a string into a sorted duplicate-free list, keeping it
sorted and duplicate-free. -/
def insertUnique (s : String) : List String → List String
  | [] => [s]
  | t :: ts =>
    if s = t then t :: ts
    else if lexLt s.data t.data then s :: t :: ts
    else t :: insertUnique s ts

/-- Models Python sorted(set(xs)): the distinct elements in ascending
order (src/app.py lines 139 and 154). -/
def sortedDedup (xs : List String) : List String :=
  xs.foldr insertUnique []

/-- The gitlab.const.DEFAULT_URL constant of the client library. -/
def DEFAULT_URL : String := "https://gitlab.com"

/-- The gitlab.const.DEVELOPER_ACCESS constant (30). -/
def DEVELOPER_ACCESS : Int := 30

/-- Embeds src/app.py line 134: env takes its second positional
parameter as alt_key, so the client library's default URL string is
used as an alternate environment variable NAME, not as a default
value. -/
def gitlabUrl (environ : String → Option String) : Option String :=
  envResolve environ "GITLAB_URL" (some DEFAULT_URL) none

/-- Embeds the user-validation loop of src/app.py lines 141-151 with
Python's iterator semantics: for i, val in enumerate(users) yields
the element at the cursor position of the LIVE list and advances the
cursor, and users.pop(i) removes the current element in place, so the
element that slides into position i is never visited.  found answers
whether gl.users.get succeeds (a 404 answers false; other errors do
not occur in the scenarios the claims quantify over).  fuel bounds
the number of executed iterations; the cursor advances on every
iteration and the list never grows, so the initial length is enough
fuel. -/
def validateAux (found : String → Bool) : Nat → List String → Nat → List String
  | 0, users, _ => users
  | fuel + 1, users, i =>
    if h : i < users.length then
      if found (users.get ⟨i, h⟩) then validateAux found fuel users (i + 1)
      else validateAux found fuel (users.eraseIdx i) (i + 1)
    else users

/-- The whole validation pass, starting at cursor 0. -/
def validateUsers (found : String → Bool) (users : List String) : List String :=
  validateAux found users.length users 0

/-- A GitLab group as the script reads it: numeric id, full path,
nullable parent reference and the group's project list (only its
length is inspected, src/app.py line 197). -/
structure Group where
  id : Int
  fullPath : String
  parentId : Option Int
  projects : List String
deriving DecidableEq

/-- The relevant configuration for the group loop. -/
structure Config where
  excludeGroups : List String
  skipBlank : Bool
  skipNested : Bool
  accessLevel : Int
deriving DecidableEq

/-- The memberships known to the remote instance, as
(group id, user identifier, access level) entries. -/
abbrev Memberships := List (Int × String × Int)

/-- Membership lookup group.members.get(user): succeeds exactly when
an entry for this group and user exists (a missing entry is the 404
branch of src/app.py line 211). -/
def isMember (st : Memberships) (gid : Int) (u : String) : Bool :=
  st.any (fun m => m.1 == gid && m.2.1 == u)

/-- What the group filters decide for one group. -/
inductive GroupAction
  | skipExcluded
  | skipNestedGroup
  | skipBlankGroup
  | process
deriving DecidableEq

/-- Embeds the filter chain of src/app.py lines 186-199, in source
order with short-circuiting.  The exclusion test is the Python
expression group.id in exclude_groups, where group.id is the int from
the API JSON and exclude_groups holds the strings produced by
splitting GITLAB_EXCLUDE_GROUPS, hence the pyIn comparison across
PyVal. -/
def groupAction (cfg : Config) (g : Group) : GroupAction :=
  if pyIn (PyVal.int g.id) (cfg.excludeGroups.map PyVal.str) then GroupAction.skipExcluded
  else if cfg.skipNested && g.parentId.isSome then GroupAction.skipNestedGroup
  else if cfg.skipBlank && decide (g.projects.length < 1) then GroupAction.skipBlankGroup
  else GroupAction.process

/-- True when the filter chain lets the group through to the
membership loop. -/
def isProcessed (cfg : Config) (g : Group) : Bool :=
  match groupAction cfg g with
  | GroupAction.process => true
  | _ => false

/-- Embeds the per-user body of src/app.py lines 205-219: when the
membership lookup succeeds nothing happens, when it 404s a membership
is created with access_level gitlab.const.DEVELOPER_ACCESS — the
literal constant on line 215, not the configured access_level — and
the users-added counter gains one. -/
def processUser (st : Memberships) (gid : Int) (u : String) : Memberships × Nat :=
  if isMember st gid u then (st, 0)
  else ((gid, u, DEVELOPER_ACCESS) :: st, 1)

/-- The inner for user in users loop over one group, threading the
membership state and summing the users-added counter. -/
def processUsers (gid : Int) : Memberships → List String → Memberships × Nat
  | st, [] => (st, 0)
  | st, u :: us =>
    ((processUsers gid (processUser st gid u).1 us).1,
     (processUser st gid u).2 + (processUsers gid (processUser st gid u).1 us).2)

/-- The counters and final membership state of the group loop
(src/app.py lines 180-230): users added, matching groups, total
groups seen. -/
structure RunResult where
  mems : Memberships
  usersAdded : Nat
  matchingGroups : Nat
  totalGroups : Nat
deriving DecidableEq

/-- Embeds the outer for g in gl_groups loop of src/app.py lines
182-226: every group bumps the total counter; a group passing the
filters bumps the matching counter and runs the user loop; a filtered
group is skipped whole. -/
def runGroupsAux (cfg : Config) (users : List String) :
    List Group → Memberships → Nat → Nat → Nat → RunResult
  | [], st, su, sg, tg => RunResult.mk st su sg tg
  | g :: gs, st, su, sg, tg =>
    if isProcessed cfg g then
      runGroupsAux cfg users gs (processUsers g.id st users).1
        (su + (processUsers g.id st users).2) (sg + 1) (tg + 1)
    else
      runGroupsAux cfg users gs st su sg (tg + 1)

/-- The whole group loop with counters starting at zero
(src/app.py line 180). -/
def runGroups (cfg : Config) (groups : List Group) (users : List String)
    (st : Memberships) : RunResult :=
  runGroupsAux cfg users groups st 0 0 0

/-- The dict of access levels on src/app.py lines 162-169 (with the
source's spelling of Maintainer kept as written). -/
def levels : List (Int × String) := [(0, "None"), (10, "Guest"), (20, "Reporter"), (30, "Developer"), (40, "Mainteiner"), (50, "Owner")]

/-- Python access_level in levels on a dict tests key membership. -/
def levelHasKey (n : Int) : Bool :=
  levels.any (fun p => p.1 == n)

/-- The remote state main runs against: which user lookups succeed,
the group list, and the existing memberships. -/
structure World where
  userExists : String → Bool
  groups : List Group
  mems : Memberships

/-- How a run of main ends in the embedding. -/
inductive MainOutcome
  | missingToken
  | badIntValue
  | invalidAccessLevel (mems : Memberships)
  | completed (r : RunResult)
deriving DecidableEq

/-- Embeds main (src/app.py lines 132-233) after login, in source
order: the required token (exit when absent), the sorted deduplicated
user list and its validation pass, the exclusion list and skip flags,
the access-level resolution with default DEVELOPER_ACCESS and its
validation against the levels dict — exiting BEFORE gl.groups.list()
is called, with the membership state untouched — and finally the
group loop.  badIntValue is the uncaught int() exception. -/
def mainRun (environ : String → Option String) (w : World) : MainOutcome :=
  match required (envResolve environ "GITLAB_PRIVATE_TOKEN" none none) with
  | ReqResult.fatalExit => MainOutcome.missingToken
  | ReqResult.ok _ =>
    let users0 := sortedDedup (envList (envResolve environ "GITLAB_FILLING_USERS" none none) ",")
    let users := validateUsers w.userExists users0
    let excludeGroups := sortedDedup (envList (envResolve environ "GITLAB_EXCLUDE_GROUPS" none none) ",")
    let skipBlank := envBoolean (envResolve environ "SKIP_BLANK_GROUPS" none none) true
    let skipNested := envBoolean (envResolve environ "SKIP_NESTED_GROUPS" none none) true
    match envInt (envResolve environ "GITLAB_USERS_ACCESS_LEVEL" none none) DEVELOPER_ACCESS with
    | none => MainOutcome.badIntValue
    | some accessLevel =>
      if levelHasKey accessLevel then
        MainOutcome.completed
          (runGroups (Config.mk excludeGroups skipBlank skipNested accessLevel) w.groups users w.mems)
      else MainOutcome.invalidAccessLevel w.mems

/-- Sample environment for the invalid-access-level scenario: only
the token and a level of 25 are set. -/
def environLevel25 : String → Option String := fun k =>
  if k = "GITLAB_PRIVATE_TOKEN" then some "token"
  else if k = "GITLAB_USERS_ACCESS_LEVEL" then some "25" else none

/-- Sample remote state with one eligible group and no memberships. -/
def worldOneGroup : World :=
  World.mk (fun _ => true) [Group.mk 7 "org/team" none ["p1"]] []

/-- Sample environment where both the primary and the alternate
variable are set. -/
def environBoth : String → Option String := fun k =>
  if k = "K" then some "pv" else if k = "A" then some "av" else none

/-- Sample environment where only the alternate variable is set. -/
def environAltOnly : String → Option String := fun k =>
  if k = "A" then some "av" else none

/-- Sample environment with nothing set. -/
def environEmpty : String → Option String := fun _ => none

/-- Sample environment that binds a variable literally named by the
client library's default URL string. -/
def environUrlName : String → Option String := fun k =>
  if k = DEFAULT_URL then some "http://surprise" else none

/-- Sample configuration for the idempotence scenario: no exclusions,
both skip flags on, Developer level. -/
def cfgPlain : Config := Config.mk [] true true 30

/-- Sample eligible group for the idempotence scenario. -/
def grpPlain : Group := Group.mk 5 "org/g" none ["p1"]

/- ------------------------------------------------------------------
Helper lemmas about the membership loop.
------------------------------------------------------------------ -/

theorem mem_processUser (st : Memberships) (gid : Int) (u : String)
    (m : Int × String × Int) (h : m ∈ st) : m ∈ (processUser st gid u).1 := by
  unfold processUser
  split
  · exact h
  · exact List.mem_cons_of_mem _ h

theorem isMember_processUser (st : Memberships) (gid : Int) (u : String) :
    isMember (processUser st gid u).1 gid u = true := by
  unfold processUser
  split
  · assumption
  · simp [isMember]

theorem processUser_eq_of_isMember (st : Memberships) (gid : Int) (u : String)
    (h : isMember st gid u = true) : processUser st gid u = (st, 0) := by
  unfold processUser
  simp [h]

theorem isMember_mono (st st₂ : Memberships) (gid : Int) (u : String)
    (hsub : ∀ m, m ∈ st → m ∈ st₂) (h : isMember st gid u = true) :
    isMember st₂ gid u = true := by
  simp only [isMember, List.any_eq_true] at h ⊢
  obtain ⟨m, hm, hp⟩ := h
  exact ⟨m, hsub m hm, hp⟩

theorem mem_processUsers (gid : Int) (us : List String) :
    ∀ st m, m ∈ st → m ∈ (processUsers gid st us).1 := by
  induction us with
  | nil => intro st m h; exact h
  | cons v vs ih =>
    intro st m h
    simp only [processUsers]
    exact ih _ _ (mem_processUser st gid v m h)

theorem processUsers_covers (gid : Int) (us : List String) :
    ∀ st u, u ∈ us → isMember (processUsers gid st us).1 gid u = true := by
  induction us with
  | nil => intro st u h; cases h
  | cons v vs ih =>
    intro st u h
    simp only [processUsers]
    rcases List.mem_cons.mp h with h1 | h2
    · subst h1
      exact isMember_mono (processUser st gid u).1 _ gid u
        (fun m hm => mem_processUsers gid vs _ m hm)
        (isMember_processUser st gid u)
    · exact ih _ _ h2

theorem processUsers_noop (gid : Int) (us : List String) :
    ∀ st, (∀ u, u ∈ us → isMember st gid u = true) →
      processUsers gid st us = (st, 0) := by
  induction us with
  | nil => intro st _; rfl
  | cons v vs ih =>
    intro st h
    have hv := h v (List.mem_cons_self v vs)
    have hrest := ih st (fun u hu => h u (List.mem_cons_of_mem _ hu))
    simp only [processUsers, processUser_eq_of_isMember st gid v hv, hrest]

theorem mem_runGroupsAux (cfg : Config) (users : List String) (gs : List Group) :
    ∀ st su sg tg m, m ∈ st → m ∈ (runGroupsAux cfg users gs st su sg tg).mems := by
  induction gs with
  | nil => intro st su sg tg m h; exact h
  | cons g gs ih =>
    intro st su sg tg m h
    simp only [runGroupsAux]
    split
    · exact ih _ _ _ _ m (mem_processUsers g.id users st m h)
    · exact ih _ _ _ _ m h

theorem runGroupsAux_covers (cfg : Config) (users : List String) (gs : List Group) :
    ∀ st su sg tg g, g ∈ gs → isProcessed cfg g = true → ∀ u, u ∈ users →
      isMember (runGroupsAux cfg users gs st su sg tg).mems g.id u = true := by
  induction gs with
  | nil => intro st su sg tg g hg; cases hg
  | cons g0 gs ih =>
    intro st su sg tg g hg hproc u hu
    simp only [runGroupsAux]
    rcases List.mem_cons.mp hg with h1 | h2
    · subst h1
      rw [if_pos hproc]
      exact isMember_mono (processUsers g.id st users).1 _ g.id u
        (fun m hm => mem_runGroupsAux cfg users gs _ _ _ _ m hm)
        (processUsers_covers g.id users st u hu)
    · split
      · exact ih _ _ _ _ g h2 hproc u hu
      · exact ih _ _ _ _ g h2 hproc u hu

theorem runGroupsAux_added (cfg : Config) (users : List String) (gs : List Group) :
    ∀ st su sg tg,
      (∀ g, g ∈ gs → isProcessed cfg g = true → ∀ u, u ∈ users → isMember st g.id u = true) →
      (runGroupsAux cfg users gs st su sg tg).usersAdded = su := by
  induction gs with
  | nil => intro st su sg tg _; rfl
  | cons g0 gs ih =>
    intro st su sg tg h
    simp only [runGroupsAux]
    by_cases hp : isProcessed cfg g0 = true
    · rw [if_pos hp]
      have hnoop := processUsers_noop g0.id users st
        (fun u hu => h g0 (List.mem_cons_self g0 gs) hp u hu)
      rw [hnoop]
      have := ih st (su + 0) (sg + 1) (tg + 1)
        (fun g hg hpg u hu => h g (List.mem_cons_of_mem _ hg) hpg u hu)
      simpa using this
    · rw [if_neg hp]
      exact ih st su sg (tg + 1)
        (fun g hg hpg u hu => h g (List.mem_cons_of_mem _ hg) hpg u hu)

/-- Helper: an int group id never tests as a member of a list of
strings under Python equality, whatever the strings say. -/
theorem pyIn_int_str (gid : Int) (l : List String) :
    pyIn (PyVal.int gid) (l.map PyVal.str) = false := by
  induction l with
  | nil => rfl
  | cons s ss ih =>
    simp only [pyIn, List.map_cons, List.any_cons] at ih ⊢
    simp [pyEq, ih]

/- ------------------------------------------------------------------
Claim theorems.
------------------------------------------------------------------ -/

/-- C1: with the configured access level 40 (Maintainer) and a user
whose membership lookup 404s in an eligible group, the run creates
the membership with access level 30, the hardcoded
gitlab.const.DEVELOPER_ACCESS of src/app.py line 215, not the
configured 40 — the users-added counter part of the claim does hold.
This evaluation exhibits the divergence from the claim. -/
theorem created_level_hardcoded :
    (runGroups (Config.mk [] true true 40) [Group.mk 7 "org/team" none ["p1"]] ["alice"] []).mems
        = [(7, "alice", 30)] ∧
    (runGroups (Config.mk [] true true 40) [Group.mk 7 "org/team" none ["p1"]] ["alice"] []).usersAdded
        = 1 :=
  ⟨rfl, rfl⟩

/-- C2: a group whose numeric id 7 is listed in
GITLAB_EXCLUDE_GROUPS as the string 7 is NOT skipped: the Python
test group.id in exclude_groups compares the int id against strings,
which never matches, so the group is processed in full — the
matching-group counter rises and a membership is created. -/
theorem excluded_group_processed :
    pyIn (PyVal.int 7) (List.map PyVal.str ["7"]) = false ∧
    (runGroups (Config.mk ["7"] true true 30) [Group.mk 7 "grp" none ["p1"]] ["alice"] []).matchingGroups
        = 1 ∧
    (runGroups (Config.mk ["7"] true true 30) [Group.mk 7 "grp" none ["p1"]] ["alice"] []).usersAdded
        = 1 :=
  ⟨rfl, rfl, rfl⟩

/-- C3: with the sorted users a, b, c where only c exists remotely,
the validation loop returns b and c: removing a by users.pop(0)
slides b into the visited position, so b is never looked up and stays
in the working set, while the claim expects exactly the filtered list
holding only c. -/
theorem validate_adjacent_notfound :
    validateUsers (fun s => s == "c") ["a", "b", "c"] = ["b", "c"] ∧
    List.filter (fun s => s == "c") ["a", "b", "c"] = ["c"] :=
  ⟨rfl, rfl⟩

/-- C4: with GITLAB_URL unset the resolved base URL is none, not the
platform default: line 134 passes gitlab.const.DEFAULT_URL as the
positional alt_key parameter, so it acts as an alternate variable
NAME — an environment variable literally named https gitlab com would
even be honoured, as the second conjunct shows. -/
theorem url_default_misplaced :
    gitlabUrl environEmpty = none ∧ gitlabUrl environUrlName = some "http://surprise" :=
  ⟨rfl, rfl⟩

/-- C5 counterexample: a required variable set to the empty string is
returned as the empty string; the fatal-exit path is not taken, while
the claim says an empty value terminates the process. -/
theorem required_empty_returns :
    required (some "") = ReqResult.ok "" ∧ required (some "") ≠ ReqResult.fatalExit :=
  ⟨rfl, by decide⟩

/-- C5 amended: the required-string accessor terminates the process
exactly when the resolved value is None — the variable is unset and
no default was given; any set value, the empty string included, is
returned unchanged. -/
theorem required_fatal_iff_none (v : Option String) :
    required v = ReqResult.fatalExit ↔ v = none := by
  cases v <;> simp [required]

/-- C5 witness: the unset case takes the fatal-exit path. -/
theorem required_none_fatal : required none = ReqResult.fatalExit :=
  (required_fatal_iff_none none).mpr rfl

/-- C6: the group loop never removes or rewrites an existing
membership entry — every entry of the starting state survives into
the final state unchanged — and a second run over the same groups,
users and configuration, starting from the state the first run
produced, adds zero users. -/
theorem run_preserves_and_idempotent (cfg : Config) (groups : List Group)
    (users : List String) (st : Memberships) :
    (∀ m, m ∈ st → m ∈ (runGroups cfg groups users st).mems) ∧
    (runGroups cfg groups users (runGroups cfg groups users st).mems).usersAdded = 0 := by
  constructor
  · intro m h
    exact mem_runGroupsAux cfg users groups st 0 0 0 m h
  · exact runGroupsAux_added cfg users groups _ 0 0 0
      (fun g hg hpg u hu => runGroupsAux_covers cfg users groups st 0 0 0 g hg hpg u hu)

/-- C6 witness: a concrete existing membership survives a run, and
the second of two identical runs adds zero users. -/
theorem run_preserves_and_idempotent_check :
    ((5, "u0", 30) ∈ (runGroups cfgPlain [grpPlain] ["u1"] [(5, "u0", 30)]).mems) ∧
    (runGroups cfgPlain [grpPlain] ["u1"] (runGroups cfgPlain [grpPlain] ["u1"] []).mems).usersAdded
        = 0 :=
  ⟨(run_preserves_and_idempotent cfgPlain [grpPlain] ["u1"] [(5, "u0", 30)]).1
      (5, "u0", 30) (by simp),
   (run_preserves_and_idempotent cfgPlain [grpPlain] ["u1"] []).2⟩

/-- C7: whenever the token is present and the access-level variable
resolves and parses to a value outside the keys of the levels dict,
main exits at the validation of src/app.py lines 171-173: the outcome
is the invalid-access-level exit taken before gl.groups.list() runs,
with the remote membership state untouched. -/
theorem invalid_level_exits_before_groups (environ : String → Option String) (w : World)
    (n : Int)
    (htok : (envResolve environ "GITLAB_PRIVATE_TOKEN" none none).isSome = true)
    (hn : envInt (envResolve environ "GITLAB_USERS_ACCESS_LEVEL" none none) DEVELOPER_ACCESS
        = some n)
    (hbad : levelHasKey n = false) :
    mainRun environ w = MainOutcome.invalidAccessLevel w.mems := by
  unfold mainRun
  obtain ⟨tok, htok2⟩ := Option.isSome_iff_exists.mp htok
  rw [htok2, hn]
  simp [required, hbad]

/-- C7 witness: a configured access level of 25 with one eligible
group and no memberships exits before any group processing. -/
theorem invalid_level_exits_before_groups_check :
    mainRun environLevel25 worldOneGroup = MainOutcome.invalidAccessLevel [] :=
  invalid_level_exits_before_groups environLevel25 worldOneGroup 25 rfl rfl rfl

/-- C8: the resolution of a key with an alternate key and a default
follows strict precedence — the primary variable's value when set
(even when the alternate is also set), else the alternate variable's
value when set, else the default. -/
theorem env_resolution_precedence (environ : String → Option String) (key ak d : String) :
    (∀ v, environ key = some v → envResolve environ key (some ak) (some d) = some v) ∧
    (environ key = none → ∀ w, environ ak = some w →
        envResolve environ key (some ak) (some d) = some w) ∧
    (environ key = none → environ ak = none →
        envResolve environ key (some ak) (some d) = some d) := by
  refine ⟨?_, ?_, ?_⟩
  · intro v hv
    simp [envResolve, osGet, hv]
  · intro hk w hw
    simp [envResolve, osGet, hk, hw]
  · intro hk ha
    simp [envResolve, osGet, hk, ha]

/-- C8 witness: with both variables set the primary wins, with only
the alternate set the alternate is used, with neither the default. -/
theorem env_resolution_precedence_check :
    envResolve environBoth "K" (some "A") (some "d") = some "pv" ∧
    envResolve environAltOnly "K" (some "A") (some "d") = some "av" ∧
    envResolve environEmpty "K" (some "A") (some "d") = some "d" :=
  ⟨(env_resolution_precedence environBoth "K" "A" "d").1 "pv" rfl,
   (env_resolution_precedence environAltOnly "K" "A" "d").2.1 rfl "av" rfl,
   (env_resolution_precedence environEmpty "K" "A" "d").2.2 rfl rfl⟩

/-- C9: on a set non-empty value the boolean accessor answers true
exactly when the lowercased value is one of the six truthy words, and
on an unset variable it returns the default unmodified. -/
theorem boolean_accessor_truth (s : String) (d : Bool) (h : s ≠ "") :
    (envBoolean (some s) d = true ↔ pyLower s ∈ trueWords) ∧ envBoolean none d = d := by
  constructor
  · simp [envBoolean, h, List.elem_eq_mem, List.contains]
  · rfl

/-- C9 witness: the mixed-case word On is truthy against a false
default, and an unset variable keeps the false default. -/
theorem boolean_accessor_truth_check :
    envBoolean (some "On") false = true ∧ envBoolean none false = false :=
  ⟨(boolean_accessor_truth "On" false (by decide)).1.mpr (by decide),
   (boolean_accessor_truth "On" false (by decide)).2⟩

/-- C10: a variable set to the empty string behaves as unset for the
typed accessors: the integer accessor returns the default unparsed,
the boolean accessor returns the default unmodified, and the list
accessor returns the empty list. -/
theorem empty_value_as_unset (d : Int) (b : Bool) (sep : String) :
    envInt (some "") d = some d ∧ envBoolean (some "") b = b ∧ envList (some "") sep = [] := by
  refine ⟨?_, ?_, ?_⟩ <;> simp [envInt, envBoolean, envList]

/-- C10 witness: the three accessors at concrete defaults. -/
theorem empty_value_as_unset_check :
    envInt (some "") 7 = some 7 ∧ envBoolean (some "") true = true ∧
    envList (some "") ";" = [] :=
  empty_value_as_unset 7 true ";"

end App
